import Mathlib

/-!
Verification of the pegasus text-refinement CLI against its specification.

The Rust source is shallowly embedded in Lean:
* Rust `f64` probabilities and thresholds are modelled as `ℚ`; the source
  only compares them with `<` and prints them with two decimals.
* Rust string operations (`str::trim`, `str::replace`, `str::lines`,
  `str::starts_with`, `str::is_empty`) are modelled as executable functions
  on the character data of `String`.  `trim` uses `Char.isWhitespace`
  (ASCII whitespace), matching Rust on all inputs the spec discusses.
* Fallible operations return `Except`; the file system and the network are
  passed in explicitly as functions describing the observable outcomes of
  `tokio::fs::read_to_string` and the `reqwest` calls.
-/

deriving instance DecidableEq for Except

namespace Pegasus

/-- Models Rust `str::trim` on a character list: drop whitespace from both ends. -/
def trimChars (l : List Char) : List Char :=
  ((l.dropWhile Char.isWhitespace).reverse.dropWhile Char.isWhitespace).reverse

/-- Models Rust `str::trim`. -/
def rustTrim (s : String) : String :=
  String.mk (trimChars s.data)

/-- Models Rust `str::is_empty`. -/
def isEmptyStr (s : String) : Bool :=
  s.data.isEmpty

/-- Models Rust `str::starts_with('#')` as used by the dictionary loader. -/
def startsWithHash (s : String) : Bool :=
  s.data.head? == some '#'

/-- Replacement loop for `rustReplace`: scan left to right, replacing each
non-overlapping occurrence of `pat` by `rep`.  The fuel argument (the length
of the scanned list) makes the recursion structural. -/
def replaceGo (pat rep : List Char) : Nat → List Char → List Char
  | _, [] => []
  | 0, l => l
  | Nat.succ fuel, c :: cs =>
    if pat.isPrefixOf (c :: cs) then
      rep ++ replaceGo pat rep fuel (List.drop (pat.length - 1) cs)
    else
      c :: replaceGo pat rep fuel cs

/-- Models Rust `str::replace` (all non-overlapping occurrences, scanned left
to right).  The source only calls it with a non-empty pattern (it guards with
`is_empty`); for an empty pattern this model returns the string unchanged. -/
def rustReplace (s pat rep : String) : String :=
  if pat.data.isEmpty then s
  else String.mk (replaceGo pat.data rep.data s.data.length s.data)

/-- Splits a character list at every newline character, keeping empty pieces. -/
def splitNL : List Char → List (List Char)
  | [] => [[]]
  | c :: cs =>
    match splitNL cs with
    | [] => [[c]]
    | h :: t => if c = '\n' then [] :: h :: t else (c :: h) :: t

/-- Models Rust `str::lines`: split at `'\n'`, drop one trailing empty piece
(so a trailing newline produces no extra line and the empty string has no
lines), and strip one trailing `'\r'` from each line. -/
def rustLines (s : String) : List String :=
  let parts := splitNL s.data
  let parts := if parts.getLast? == some [] then parts.dropLast else parts
  parts.map fun l => String.mk (if l.getLast? == some '\r' then l.dropLast else l)

/-- Models Rust's `{:.2}` formatting of an `f64`, transported to `ℚ`: the
value scaled by 100 and rounded to the nearest integer (halves up), printed
with exactly two digits after the decimal point. -/
def format2 (q : ℚ) : String :=
  let scaled : Int := Int.fdiv (200 * q.num + (q.den : Int)) (2 * (q.den : Int))
  let sign := if scaled < 0 then "-" else ""
  let m := scaled.natAbs
  sign ++ Nat.repr (m / 100) ++ "." ++
    (if m % 100 < 10 then "0" else "") ++ Nat.repr (m % 100)

/-- Word of a Whisper transcription, from `src/input/transcription.rs`
(`WhisperWord`): the text (which may include a leading space) and the
probability score. -/
structure WhisperWord where
  word : String
  probability : ℚ
deriving DecidableEq

/-- Segment of a Whisper transcription (`WhisperSegment`). -/
structure WhisperSegment where
  text : String
  words : List WhisperWord
deriving DecidableEq

/-- Complete Whisper transcription data (`WhisperTranscription`); every field
is optional so that simple text-only transcripts parse as well. -/
structure WhisperTranscription where
  text : Option String
  language : Option String
  duration : Option ℚ
  segments : Option (List WhisperSegment)
deriving DecidableEq

/-- Embeds `WhisperTranscription::get_low_probability_words`: all words of
all segments whose probability is strictly below the threshold, in segment
order; empty when there are no segments. -/
def WhisperTranscription.get_low_probability_words
    (t : WhisperTranscription) (threshold : ℚ) : List WhisperWord :=
  match t.segments with
  | none => []
  | some segments =>
    ((segments.map fun segment => segment.words).flatten).filter
      fun word => word.probability < threshold

/-- Embeds `WhisperTranscription::word_count`. -/
def WhisperTranscription.word_count (t : WhisperTranscription) : Nat :=
  match t.segments with
  | none => 0
  | some segments => (segments.map fun segment => segment.words.length).sum

/-- Embeds `WhisperTranscription::full_text`. -/
def WhisperTranscription.full_text (t : WhisperTranscription) : String :=
  match t.text with
  | some text => text
  | none =>
    match t.segments with
    | none => ""
    | some segments => String.intercalate "\n" (segments.map fun s => s.text)

/-- Embeds `WhisperTranscription::language_or_default`. -/
def WhisperTranscription.language_or_default (t : WhisperTranscription) : String :=
  match t.language with
  | some language => language
  | none => "unknown"

/-- Embeds `WhisperTranscription::duration_or_default`. -/
def WhisperTranscription.duration_or_default (t : WhisperTranscription) : ℚ :=
  match t.duration with
  | some duration => duration
  | none => 0

/-- One step of the flagging loop of `build_whisper_user_prompt`: if the
word's trimmed text is non-empty, replace each of its occurrences in the
segment text by the text followed by the low-probability marker. -/
def flagWord (segment_text : String) (word : WhisperWord) : String :=
  let trimmed_word := rustTrim word.word
  if isEmptyStr trimmed_word then segment_text
  else
    rustReplace segment_text trimmed_word
      (trimmed_word ++ " [LOW PROBABILITY: " ++ format2 word.probability ++ "]")

/-- Flagging of one segment's text with every low-probability word, in list
order, as the inner loop of `build_whisper_user_prompt` does. -/
def flagSegmentText (low_probability_words : List WhisperWord)
    (segment_text : String) : String :=
  low_probability_words.foldl flagWord segment_text

/-- Header of the Whisper-aware user prompt, from the format string in
`build_whisper_user_prompt`. -/
def whisperHeader (t : WhisperTranscription) (probability_threshold : ℚ) : String :=
  "Please refine the following transcribed text (" ++ t.language_or_default ++
    "). Words with probability scores below " ++ format2 probability_threshold ++
    " are marked with [LOW PROBABILITY: X.XX]:\n\n"

/-- Embeds `build_whisper_user_prompt` from `src/llm/prompts.rs`: with
segments present, flag every low-probability word in each segment's text,
append each processed segment text followed by a newline, and prefix the
header; without segments fall back to the plain text form. -/
def build_whisper_user_prompt (transcription : WhisperTranscription)
    (probability_threshold : ℚ) : String :=
  match transcription.segments with
  | some segments =>
    let low_probability_words :=
      transcription.get_low_probability_words probability_threshold
    let formatted_text := segments.foldl
      (fun acc segment => acc ++ flagSegmentText low_probability_words segment.text ++ "\n")
      ""
    whisperHeader transcription probability_threshold ++ formatted_text
  | none =>
    "Please refine the following transcribed text (" ++
      transcription.language_or_default ++ "):\n\n" ++ transcription.full_text

/-- Joins a list of strings with newline separators (no trailing newline). -/
def joinNL : List String → String
  | [] => ""
  | [a] => a
  | a :: b :: rest => a ++ "\n" ++ joinNL (b :: rest)

/-- Rendering of the Whisper user prompt exactly as the specification
sentence words it: per-segment flagging as in the source, but the processed
segment texts joined with newlines (no trailing newline) before the header
is prefixed.  Compared against `build_whisper_user_prompt`. -/
def spec_whisper_user_prompt (transcription : WhisperTranscription)
    (probability_threshold : ℚ) : String :=
  match transcription.segments with
  | some segments =>
    let low_probability_words :=
      transcription.get_low_probability_words probability_threshold
    whisperHeader transcription probability_threshold ++
      joinNL (segments.map fun segment =>
        flagSegmentText low_probability_words segment.text)
  | none =>
    "Please refine the following transcribed text (" ++
      transcription.language_or_default ++ "):\n\n" ++ transcription.full_text

/-- All words of a transcription in segment-then-word order (the order in
which `get_low_probability_words` scans them). -/
def allWords (t : WhisperTranscription) : List WhisperWord :=
  match t.segments with
  | none => []
  | some segments => (segments.map fun segment => segment.words).flatten

/-- Input-layer errors, from `src/input/errors.rs` (`InputError`). -/
inductive InputError where
  | FileReadError (path : String) (error : String)
  | EmptyInput
  | NoInputProvided
deriving DecidableEq

/-- Resolved input source, from `src/input/mod.rs` (`InputSource`). -/
inductive InputSource where
  | Input (input : String)
  | File (file_path : String)
deriving DecidableEq

/-- Embeds `InputSource::resolve_input_source`: inline input wins, then the
file path, otherwise `NoInputProvided`. -/
def resolve_input_source (input : Option String) (file_path : Option String) :
    Except InputError InputSource :=
  match input with
  | some input => .ok (.Input input)
  | none =>
    match file_path with
    | some file_path => .ok (.File file_path)
    | none => .error .NoInputProvided

/-- Embeds `InputSource::read_from_input_source`.  The file system is passed
in as `fs`, describing what `files::operations::read_to_string` returns for
each path (content, or the error's display string). -/
def read_from_input_source (src : InputSource)
    (fs : String → Except String String) : Except InputError String :=
  match src with
  | .Input input =>
    if isEmptyStr (rustTrim input) then .error .EmptyInput else .ok input
  | .File file =>
    match fs file with
    | .error e => .error (.FileReadError file e)
    | .ok content =>
      if isEmptyStr (rustTrim content) then .error .EmptyInput else .ok content

/-- Embeds `InputReader::read_input`: resolve, then read. -/
def read_input (input file_path : Option String)
    (fs : String → Except String String) : Except InputError String :=
  match resolve_input_source input file_path with
  | .error e => .error e
  | .ok src => read_from_input_source src fs

/-- Application runtime errors, from `src/app/errors.rs` (`RuntimeError`). -/
inductive RuntimeError where
  | Input (msg : String)
  | LLM (msg : String)
  | Refinement (msg : String)
deriving DecidableEq

/-- Embeds `App::load_dictionary`: an empty configured path yields an empty
list; otherwise the file is read, each line trimmed, and empty or
`#`-starting lines discarded. -/
def load_dictionary (dictionary_path : String)
    (fs : String → Except String String) : Except RuntimeError (List String) :=
  if isEmptyStr dictionary_path then .ok []
  else
    match fs dictionary_path with
    | .error e => .error (.Input ("Failed to read dictionary: " ++ e))
    | .ok content =>
      .ok (((rustLines content).map rustTrim).filter
        fun line => !isEmptyStr line && !startsWithHash line)

/-- Network-layer errors, from `src/network/errors.rs` (`NetworkError`). -/
inductive NetworkError where
  | InvalidURL (url : String)
  | RequestFailed
  | ResponseError
  | DecodeError
deriving DecidableEq

/-- Embeds `HttpClient::check_url`.  The effects of `reqwest` are passed in:
`parse_ok` is whether `Url::parse(base_url)` succeeds, and `get_response` is
the status of the GET probe to the base URL (`none` for connection failure). -/
def check_url (base_url : String) (parse_ok : Bool)
    (get_response : Option Nat) : Except NetworkError Unit :=
  if !parse_ok then .error (.InvalidURL base_url)
  else
    match get_response with
    | none => .error .RequestFailed
    | some status =>
      if status ≠ 200 ∧ status ≠ 404 then .error (.InvalidURL base_url)
      else .ok ()

/-- Embeds `HttpClient::post_with_json`: probe via `check_url`, then POST.
`post_response` is the status and body of the POST (`none` for send failure)
and `decode` is JSON deserialization of the body into `V`. -/
def post_with_json {V : Type} (base_url : String) (parse_ok : Bool)
    (get_response : Option Nat) (post_response : Option (Nat × String))
    (decode : String → Option V) : Except NetworkError V :=
  match check_url base_url parse_ok get_response with
  | .error e => .error e
  | .ok _ =>
    match post_response with
    | none => .error .RequestFailed
    | some (status, body) =>
      if ¬(200 ≤ status ∧ status ≤ 299) then .error .ResponseError
      else
        match decode body with
        | none => .error .DecodeError
        | some v => .ok v

/-- Message of a chat-completion choice, from `src/llm/response.rs`. -/
structure ResponseMessage where
  content : String
deriving DecidableEq

/-- One choice of a chat-completion response. -/
structure Choice where
  message : ResponseMessage
deriving DecidableEq

/-- OpenAI-compatible chat-completion response. -/
structure ChatCompletionResponse where
  choices : List Choice
deriving DecidableEq

/-- LLM-layer errors, from `src/llm/errors.rs` (`LLMError`). -/
inductive LLMError where
  | ApiRequestFailed (msg : String)
  | InvalidResponse (msg : String)
  | RefinementFailed (msg : String)
deriving DecidableEq

/-- Embeds the response-handling tail of `LLMClient::execute_refinement`
(`src/llm/client.rs`, lines 91-108): take the first choice (else
`InvalidResponse`), trim its content, and reject empty text with
`RefinementFailed`. -/
def execute_refinement_extract (completion : ChatCompletionResponse) :
    Except LLMError String :=
  match completion.choices with
  | [] => .error (.InvalidResponse "No choices in response")
  | choice :: _ =>
    let refined_text := rustTrim choice.message.content
    if isEmptyStr refined_text then
      .error (.RefinementFailed "LLM returned empty content")
    else .ok refined_text

/-- Output format, from `src/output/format.rs` (`OutputFormat`). -/
inductive OutputFormat where
  | Text
  | Json
deriving DecidableEq

/-- Lowercase hexadecimal digit, for JSON control-character escapes. -/
def hexDigitChar (n : Nat) : Char :=
  if n < 10 then Char.ofNat (48 + n) else Char.ofNat (87 + n)

/-- Escape of a single character in a JSON string, as `serde_json` writes
it: short escapes for quote, backslash and the common control characters,
`\u00XX` for the other control characters, and the character itself
otherwise. -/
def jsonEscapeChar (c : Char) : List Char :=
  if c = '"' then ['\\', '"']
  else if c = '\\' then ['\\', '\\']
  else if c.toNat < 32 then
    match c.toNat with
    | 8 => ['\\', 'b']
    | 9 => ['\\', 't']
    | 10 => ['\\', 'n']
    | 12 => ['\\', 'f']
    | 13 => ['\\', 'r']
    | n => ['\\', 'u', '0', '0', hexDigitChar (n / 16), hexDigitChar (n % 16)]
  else [c]

/-- Models `serde_json` serialization of a string value. -/
def json_escape_string (s : String) : String :=
  String.mk ('"' :: (s.data.map jsonEscapeChar).flatten ++ ['"'])

/-- Embeds `App::format_output`: `Text` returns the refined text unchanged;
`Json` serializes the `serde_json::json!` object with the single key
`"text"`.  Serializing a `serde_json::Value` cannot fail, so the `Json`
branch always succeeds. -/
def format_output (refined_text : String) (format : OutputFormat) :
    Except RuntimeError String :=
  match format with
  | .Text => .ok refined_text
  | .Json =>
    .ok ("\x7b\"text\":" ++ json_escape_string refined_text ++ "\x7d")

/-- LLM section of the configuration, from `src/config/mod.rs`. -/
structure LLMConfig where
  url : Option String
deriving DecidableEq

/-- General section of the configuration. -/
structure GeneralConfig where
  custom_dictionary_path : Option String
deriving DecidableEq

/-- Application configuration (`Config`). -/
structure Config where
  llm : LLMConfig
  general : GeneralConfig
deriving DecidableEq

/-- Embeds `impl Default for Config`: the default URL and an empty
dictionary path, both stored as present values. -/
def Config.defaultConfig : Config :=
  { llm := { url := some "http://127.0.0.1:8080" }
    general := { custom_dictionary_path := some "" } }

/-- Embeds `Config::get_llm_url`. -/
def Config.get_llm_url (c : Config) : String :=
  c.llm.url.getD "http://127.0.0.1:8080"

/-- Embeds `Config::get_custom_dictionary_path`. -/
def Config.get_custom_dictionary_path (c : Config) : String :=
  c.general.custom_dictionary_path.getD ""

/-- Subcommands as `src/main.rs` dispatches them.  The `match` in `main`
handles only `Some(Commands::ResetConfig)` and `None`, so only that command
is modelled. -/
inductive Commands where
  | ResetConfig
deriving DecidableEq

/-- Observable outcome of one run of `main` (`src/main.rs`): which terminal
branch is reached, with the printed message.  `noInputExit` and
`fileReadExit` are the `std::process::exit(1)` branches of input
resolution, `resetOk` is the confirmation-then-return branch (exit 0),
`resetFailed` exits 1, and `refineFlow` proceeds into text refinement with
the resolved input text. -/
inductive MainOutcome where
  | noInputExit (stderr_msg : String)
  | fileReadExit (stderr_msg : String)
  | resetOk (stdout_msg : String)
  | resetFailed (stderr_msg : String)
  | refineFlow (input_text : String)
deriving DecidableEq

/-- Embeds the control flow of `main` after a successful configuration
load: `main.rs` resolves `cli.input` / `cli.file` into `input_text` first
(exiting 1 when both are absent or the file read fails), and only then
matches on the subcommand.  `read_file` describes
`files::operations::read_to_string` and `reset_result` describes
`Config::reset_to_defaults`. -/
def main_flow (command : Option Commands) (input file : Option String)
    (read_file : String → Except String String)
    (reset_result : Except String Unit) : MainOutcome :=
  let dispatch := fun (input_text : String) =>
    match command with
    | some .ResetConfig =>
      match reset_result with
      | .ok _ => MainOutcome.resetOk "Configuration has been reset to default values."
      | .error e => MainOutcome.resetFailed ("Failed to reset configuration: " ++ e)
    | none => MainOutcome.refineFlow input_text
  match input with
  | some input => dispatch input
  | none =>
    match file with
    | some file =>
      match read_file file with
      | .ok content => dispatch content
      | .error e => MainOutcome.fileReadExit ("Error reading file: " ++ e)
    | none => MainOutcome.noInputExit "Please provide input text or a file path."

/-- Example word with probability 0.9, for concrete checks. -/
def wordAlpha : WhisperWord := { word := "alpha", probability := mkRat 9 10 }

/-- Example word with probability 0.3. -/
def wordBeta : WhisperWord := { word := "beta", probability := mkRat 3 10 }

/-- Example word with probability exactly 0.5, the threshold boundary. -/
def wordGamma : WhisperWord := { word := "gamma", probability := mkRat 1 2 }

/-- Example transcription with one segment of three words whose
probabilities are 0.9, 0.3 and 0.5. -/
def exampleTranscription : WhisperTranscription :=
  { text := none
    language := some "en"
    duration := none
    segments := some [{ text := "alpha beta gamma"
                        words := [wordAlpha, wordBeta, wordGamma] }] }

/-- Minimal transcription with a segments list: one segment reading `"hi"`
with no word-level data. -/
def tinyTranscription : WhisperTranscription :=
  { text := none
    language := none
    duration := none
    segments := some [{ text := "hi", words := [] }] }

/-- File system on which every read fails. -/
def fsAllFail : String → Except String String :=
  fun _ => .error "No such file or directory (os error 2)"

/-- File system that returns the dictionary example from the specification
for every path. -/
def fsDictExample : String → Except String String :=
  fun _ => .ok "foo\n# comment\n\nbar  \n"

theorem isEmptyStr_true_iff (s : String) : isEmptyStr s = true ↔ s = "" := by
  cases s with
  | mk data =>
    simp [isEmptyStr, List.isEmpty_iff, String.ext_iff]

theorem isEmptyStr_false_iff (s : String) : isEmptyStr s = false ↔ s ≠ "" := by
  rw [Bool.eq_false_iff]
  exact not_congr (isEmptyStr_true_iff s)

theorem foldl_append_nl {α : Type} (f : α → String) :
    ∀ (l : List α) (acc : String),
      l.foldl (fun a x => a ++ f x ++ "\n") acc
        = acc ++ joinNL (l.map f) ++ (if l.isEmpty then "" else "\n")
  | [], acc => by simp [joinNL]
  | [x], acc => by simp [joinNL, String.append_assoc]
  | x :: y :: rest, acc => by
    have ih := foldl_append_nl f (y :: rest) (acc ++ f x ++ "\n")
    simp only [List.foldl] at ih ⊢
    rw [ih]
    simp [joinNL, String.append_assoc]

theorem get_low_eq_filter (t : WhisperTranscription) (threshold : ℚ) :
    t.get_low_probability_words threshold =
      (allWords t).filter fun w => w.probability < threshold := by
  cases h : t.segments <;>
    simp [WhisperTranscription.get_low_probability_words, allWords, h]

theorem allWords_length (t : WhisperTranscription) :
    (allWords t).length = t.word_count := by
  cases h : t.segments <;>
    simp [allWords, WhisperTranscription.word_count, h, List.length_flatten,
      List.map_map, Function.comp_def]

/-- C1 counterexample: on a transcription with one segment reading `"hi"`,
the produced prompt carries a trailing newline after the final segment text,
so it differs from the string the claim describes (header followed by the
segment texts joined with newlines). -/
theorem C1_whisper_user_prompt_counterexample :
    build_whisper_user_prompt tinyTranscription (mkRat 1 2) ≠
      spec_whisper_user_prompt tinyTranscription (mkRat 1 2) := by
  decide

/-- C1 (amended): for every transcription with a segments list, the Whisper
user prompt is the header naming the detected language and the threshold,
followed by the per-segment texts — each with every flagged low-probability
word's trimmed text replaced by the text plus a two-decimal low-probability
marker — joined with newlines, with one additional trailing newline after
the final segment whenever at least one segment exists. -/
theorem C1_whisper_user_prompt_amended (t : WhisperTranscription)
    (threshold : ℚ) (segs : List WhisperSegment) (h : t.segments = some segs) :
    build_whisper_user_prompt t threshold =
      whisperHeader t threshold ++
        (joinNL (segs.map fun seg =>
          flagSegmentText (t.get_low_probability_words threshold) seg.text) ++
          (if segs.isEmpty then "" else "\n")) := by
  simp only [build_whisper_user_prompt, h]
  rw [foldl_append_nl
    (fun seg => flagSegmentText (t.get_low_probability_words threshold) seg.text)
    segs ""]
  simp [String.append_assoc]

/-- Witness for C1: the amended statement evaluated on the one-segment
transcription. -/
theorem C1_whisper_user_prompt_amended_witness :
    tinyTranscription.segments = some [{ text := "hi", words := [] }] ∧
    build_whisper_user_prompt tinyTranscription (mkRat 1 2) =
      whisperHeader tinyTranscription (mkRat 1 2) ++
        (joinNL (([{ text := "hi", words := [] }] : List WhisperSegment).map
          fun seg => flagSegmentText
            (tinyTranscription.get_low_probability_words (mkRat 1 2)) seg.text) ++
          (if ([{ text := "hi", words := [] }] : List WhisperSegment).isEmpty
            then "" else "\n")) :=
  ⟨rfl, C1_whisper_user_prompt_amended tinyTranscription (mkRat 1 2) _ rfl⟩

/-- C2: `main` resolves the inline/file input before dispatching the
subcommand, so invoking `reset-config` with no other flags exits 1 with the
no-input message and never reaches `Config::reset_to_defaults`; the default
configuration itself does carry the documented URL and empty dictionary
path. -/
theorem C2_reset_config_blocked_by_input_check :
    (∀ (read_file : String → Except String String)
      (reset_result : Except String Unit),
      main_flow (some .ResetConfig) none none read_file reset_result =
        .noInputExit "Please provide input text or a file path.") ∧
    Config.defaultConfig.get_llm_url = "http://127.0.0.1:8080" ∧
    Config.defaultConfig.get_custom_dictionary_path = "" :=
  ⟨fun _ _ => rfl, rfl, rfl⟩

/-- C3: input resolution fails with `NoInputProvided` when both inputs are
absent, returns present inline text verbatim when its trimmed form is
non-empty, fails with `EmptyInput` when the inline text (or the file's
content) trims to empty, and wraps a file read failure as `FileReadError`
with the path and cause. -/
theorem C3_input_resolution (input file_path : Option String)
    (fs : String → Except String String) :
    (input = none → file_path = none →
      read_input input file_path fs = .error .NoInputProvided) ∧
    (∀ i, input = some i → rustTrim i ≠ "" →
      read_input input file_path fs = .ok i) ∧
    (∀ i, input = some i → rustTrim i = "" →
      read_input input file_path fs = .error .EmptyInput) ∧
    (∀ f c, input = none → file_path = some f → fs f = .ok c →
      rustTrim c = "" →
      read_input input file_path fs = .error .EmptyInput) ∧
    (∀ f e, input = none → file_path = some f → fs f = .error e →
      read_input input file_path fs = .error (.FileReadError f e)) := by
  refine ⟨?_, ?_, ?_, ?_, ?_⟩
  · rintro rfl rfl
    rfl
  · rintro i rfl hne
    simp [read_input, resolve_input_source, read_from_input_source,
      (isEmptyStr_false_iff _).mpr hne]
  · rintro i rfl heq
    simp [read_input, resolve_input_source, read_from_input_source,
      (isEmptyStr_true_iff _).mpr heq]
  · rintro f c rfl rfl hread heq
    simp [read_input, resolve_input_source, read_from_input_source, hread,
      (isEmptyStr_true_iff _).mpr heq]
  · rintro f e rfl rfl hread
    simp [read_input, resolve_input_source, read_from_input_source, hread]

/-- Witness for C3: the inline input `"hi"` resolves to itself. -/
theorem C3_input_resolution_witness :
    read_input (some "hi") none fsAllFail = .ok "hi" :=
  (C3_input_resolution (some "hi") none fsAllFail).2.1 "hi" rfl (by decide)

/-- C4: dictionary loading returns an empty list for the empty configured
path; otherwise it reads the file, splits it into lines, trims each line,
discards empty and `#`-starting lines, and keeps the rest in file order —
in particular the specification's example yields exactly
`["foo", "bar"]`. -/
theorem C4_load_dictionary (dictionary_path : String)
    (fs : String → Except String String) :
    (dictionary_path = "" → load_dictionary dictionary_path fs = .ok []) ∧
    (∀ content, dictionary_path ≠ "" → fs dictionary_path = .ok content →
      load_dictionary dictionary_path fs =
        .ok (((rustLines content).map rustTrim).filter
          fun line => !isEmptyStr line && !startsWithHash line)) ∧
    (dictionary_path ≠ "" → fs dictionary_path = .ok "foo\n# comment\n\nbar  \n" →
      load_dictionary dictionary_path fs = .ok ["foo", "bar"]) := by
  refine ⟨?_, ?_, ?_⟩
  · rintro rfl
    rfl
  · intro content hne hread
    simp [load_dictionary, (isEmptyStr_false_iff _).mpr hne, hread]
  · intro hne hread
    simp only [load_dictionary, (isEmptyStr_false_iff _).mpr hne,
      Bool.false_eq_true, if_false, hread]
    decide

/-- Witness for C4: loading the specification's example dictionary file
yields `["foo", "bar"]`. -/
theorem C4_load_dictionary_witness :
    load_dictionary "dict.txt" fsDictExample = .ok ["foo", "bar"] :=
  (C4_load_dictionary "dict.txt" fsDictExample).2.2 (by decide) rfl

/-- C5: `get_low_probability_words` is exactly the filter of the words in
segment-then-word order by strict comparison with the threshold (so a word
whose probability equals the threshold is excluded), and is empty when
there is no segments field. -/
theorem C5_low_probability_words (t : WhisperTranscription) (threshold : ℚ) :
    t.get_low_probability_words threshold =
      ((allWords t).filter fun w => w.probability < threshold) ∧
    (t.segments = none → t.get_low_probability_words threshold = []) ∧
    List.Sublist (t.get_low_probability_words threshold) (allWords t) ∧
    (∀ w, w ∈ allWords t →
      (w ∈ t.get_low_probability_words threshold ↔
        w.probability < threshold)) := by
  refine ⟨get_low_eq_filter t threshold, ?_, ?_, ?_⟩
  · intro h
    simp [WhisperTranscription.get_low_probability_words, h]
  · rw [get_low_eq_filter]
    exact List.filter_sublist _
  · intro w hw
    rw [get_low_eq_filter]
    simp [List.mem_filter, hw]

/-- Witness for C5: with probabilities 0.9, 0.3 and 0.5 against threshold
0.5, the 0.3 word is returned and the word at exactly the threshold is
not. -/
theorem C5_low_probability_words_witness :
    wordBeta ∈ exampleTranscription.get_low_probability_words (mkRat 1 2) ∧
    wordGamma ∉ exampleTranscription.get_low_probability_words (mkRat 1 2) := by
  have h := C5_low_probability_words exampleTranscription (mkRat 1 2)
  refine ⟨(h.2.2.2 wordBeta (by decide)).mpr (by decide), fun hmem => ?_⟩
  exact absurd ((h.2.2.2 wordGamma (by decide)).mp hmem) (by decide)

/-- C6: `post_with_json` fails with `InvalidURL` on a malformed base URL;
the GET probe accepts status 200 or 404, turns any other status into
`InvalidURL` and a connection failure into `RequestFailed`; after a
successful probe, a non-2xx POST status yields `ResponseError` and an
undecodable body yields `DecodeError`. -/
theorem C6_post_with_json {V : Type} (base_url : String) (parse_ok : Bool)
    (get_response : Option Nat) (post_response : Option (Nat × String))
    (decode : String → Option V) :
    (parse_ok = false →
      post_with_json base_url parse_ok get_response post_response decode =
        .error (.InvalidURL base_url)) ∧
    (parse_ok = true → get_response = none →
      post_with_json base_url parse_ok get_response post_response decode =
        .error .RequestFailed) ∧
    (∀ status, parse_ok = true → get_response = some status →
      status ≠ 200 → status ≠ 404 →
      post_with_json base_url parse_ok get_response post_response decode =
        .error (.InvalidURL base_url)) ∧
    (∀ status post_status body, parse_ok = true →
      get_response = some status → (status = 200 ∨ status = 404) →
      post_response = some (post_status, body) →
      ¬(200 ≤ post_status ∧ post_status ≤ 299) →
      post_with_json base_url parse_ok get_response post_response decode =
        .error .ResponseError) ∧
    (∀ status post_status body, parse_ok = true →
      get_response = some status → (status = 200 ∨ status = 404) →
      post_response = some (post_status, body) →
      200 ≤ post_status → post_status ≤ 299 → decode body = none →
      post_with_json base_url parse_ok get_response post_response decode =
        .error .DecodeError) := by
  refine ⟨?_, ?_, ?_, ?_, ?_⟩
  · rintro rfl
    rfl
  · rintro rfl rfl
    rfl
  · rintro status rfl rfl hne200 hne404
    simp [post_with_json, check_url, hne200, hne404]
  · rintro status post_status body rfl rfl hok rfl hbad
    rcases hok with rfl | rfl <;>
      simp [post_with_json, check_url, hbad]
  · rintro status post_status body rfl rfl hok rfl hlo hhi hdec
    rcases hok with rfl | rfl <;>
      simp [post_with_json, check_url, hlo, hhi, hdec]

/-- Witness for C6: a reachable probe followed by a 500 POST response fails
with `ResponseError`. -/
theorem C6_post_with_json_witness :
    post_with_json "http://127.0.0.1:8080" true (some 200) (some (500, "oops"))
      (fun _ : String => (none : Option Nat)) = .error .ResponseError :=
  (C6_post_with_json "http://127.0.0.1:8080" true (some 200)
    (some (500, "oops")) (fun _ : String => (none : Option Nat))).2.2.2.1
    200 500 "oops" rfl rfl (Or.inl rfl) rfl (by decide)

/-- C7: the refinement step returns the first choice's content trimmed;
it fails with an `InvalidResponse` error exactly when the choices list is
empty, and with a `RefinementFailed` error exactly when the first choice's
trimmed content is empty. -/
theorem C7_refinement_extraction (completion : ChatCompletionResponse) :
    ((∃ msg, execute_refinement_extract completion =
        .error (.InvalidResponse msg)) ↔ completion.choices = []) ∧
    ((∃ msg, execute_refinement_extract completion =
        .error (.RefinementFailed msg)) ↔
      ∃ choice rest, completion.choices = choice :: rest ∧
        rustTrim choice.message.content = "") ∧
    (∀ choice rest, completion.choices = choice :: rest →
      rustTrim choice.message.content ≠ "" →
      execute_refinement_extract completion =
        .ok (rustTrim choice.message.content)) := by
  refine ⟨?_, ?_, ?_⟩
  · cases hc : completion.choices with
    | nil =>
      simp [execute_refinement_extract, hc]
    | cons choice rest =>
      simp only [execute_refinement_extract, hc]
      constructor
      · rintro ⟨msg, hmsg⟩
        by_cases h : isEmptyStr (rustTrim choice.message.content) <;>
          simp [h] at hmsg
      · intro h
        exact absurd h (by simp)
  · cases hc : completion.choices with
    | nil =>
      simp [execute_refinement_extract, hc]
    | cons choice rest =>
      by_cases h : rustTrim choice.message.content = ""
      · constructor
        · intro _
          exact ⟨choice, rest, rfl, h⟩
        · intro _
          refine ⟨"LLM returned empty content", ?_⟩
          simp [execute_refinement_extract, hc, (isEmptyStr_true_iff _).mpr h]
      · constructor
        · rintro ⟨msg, hmsg⟩
          simp [execute_refinement_extract, hc,
            (isEmptyStr_false_iff _).mpr h] at hmsg
        · rintro ⟨choice2, rest2, heq, hemp⟩
          injection heq with h1 h2
          rw [← h1] at hemp
          exact absurd hemp h
  · intro choice rest hc hne
    simp [execute_refinement_extract, hc, (isEmptyStr_false_iff _).mpr hne]

/-- Witness for C7: a single choice with content `" hi "` extracts to
`"hi"`. -/
theorem C7_refinement_extraction_witness :
    execute_refinement_extract
      { choices := [{ message := { content := " hi " } }] } = .ok "hi" := by
  have h := (C7_refinement_extraction
    { choices := [{ message := { content := " hi " } }] }).2.2
    { message := { content := " hi " } } [] rfl (by decide)
  rw [h]
  decide

/-- C8: output formatting in `Text` mode is the identity on the refined
string, and in `Json` mode produces the single-key object
`{"text": <refined>}`; on `"hello"` the JSON output is exactly
`{"text":"hello"}`. -/
theorem C8_format_output (refined_text : String) :
    format_output refined_text .Text = .ok refined_text ∧
    format_output refined_text .Json =
      .ok ("\x7b\"text\":" ++ json_escape_string refined_text ++ "\x7d") ∧
    format_output "hello" .Json = .ok "\x7b\"text\":\"hello\"\x7d" :=
  ⟨rfl, rfl, by decide⟩

/-- C9: when inline text is supplied, it takes precedence: the result is
determined by the inline string alone (the file system is never consulted)
and equals the inline string, subject only to the emptiness check. -/
theorem C9_inline_precedence (i : String) (file_path : Option String)
    (fs fs2 : String → Except String String) :
    read_input (some i) file_path fs = read_input (some i) file_path fs2 ∧
    read_input (some i) file_path fs =
      (if rustTrim i = "" then .error .EmptyInput else .ok i) := by
  refine ⟨rfl, ?_⟩
  by_cases h : rustTrim i = ""
  · simp [read_input, resolve_input_source, read_from_input_source, h,
      (isEmptyStr_true_iff "").mpr rfl]
  · simp [read_input, resolve_input_source, read_from_input_source, h,
      (isEmptyStr_false_iff _).mpr h]

/-- C10: the low-probability list is a subsequence of the words in
segment-then-word order, its length is at most `word_count`, and it is
monotone in the threshold. -/
theorem C10_low_probability_monotone (t : WhisperTranscription)
    (t1 t2 : ℚ) (h : t1 ≤ t2) :
    List.Sublist (t.get_low_probability_words t1) (allWords t) ∧
    (t.get_low_probability_words t1).length ≤ t.word_count ∧
    (∀ w, w ∈ t.get_low_probability_words t1 →
      w ∈ t.get_low_probability_words t2) := by
  refine ⟨?_, ?_, ?_⟩
  · rw [get_low_eq_filter]
    exact List.filter_sublist _
  · rw [get_low_eq_filter, ← allWords_length]
    exact List.length_filter_le _ _
  · intro w hw
    rw [get_low_eq_filter] at hw ⊢
    rw [List.mem_filter] at hw ⊢
    exact ⟨hw.1, by
      have := of_decide_eq_true hw.2
      exact decide_eq_true (lt_of_lt_of_le this h)⟩

/-- Witness for C10: a word below threshold 0.5 is also below threshold
0.9. -/
theorem C10_low_probability_monotone_witness :
    wordBeta ∈ exampleTranscription.get_low_probability_words (mkRat 9 10) :=
  (C10_low_probability_monotone exampleTranscription (mkRat 1 2) (mkRat 9 10)
    (by decide)).2.2 wordBeta (by decide)

end Pegasus
